import Mathlib

/-!
Shallow embedding of src/hw/misc/peripheral-register.c (peripheral register
emulation: register state, bitfield validation, propagation-rule compilation,
and the byte-granular endianness-aware write codec), together with theorems
settling the specification claims about it.

Machine integers are modelled as `Nat` with explicit truncation to 64 bits
where the C code computes on `uint64_t`.  The C `union { uint64_t ll;
uint8_t b[8]; }` byte accesses are modelled as little-endian byte
extraction/insertion on the 64-bit value (the code's own compiled branch is
the little-endian-host one; the big-endian-host branch is preprocessed out
and commented "Not tested" in the source).
-/

/-- All 64 bits set, the value `0xFFFFFFFFFFFFFFFF` used by the source. -/
def ones64 : Nat := 2 ^ 64 - 1

/-- C bitwise complement `~x` on a `uint64_t` operand. -/
def not64 (x : Nat) : Nat := ones64 ^^^ (x % 2 ^ 64)

/-- C left shift of a `uint64_t` by a nonnegative count (wraps modulo 2^64). -/
def shl64 (x s : Nat) : Nat := (x <<< s) % 2 ^ 64

/-- C right shift `x >> s` of a `uint64_t` by a signed `int` count, as it
occurs in the `shift < 0` branches of `peripheral_register_write_callback`
(lines 321-322, 330, 338), where the count is the negative `shift` value
itself.  A negative shift count is undefined behavior in C; on the hosts
this code runs on (x86-64, AArch64) the hardware masks the count to its low
6 bits, i.e. uses `s mod 64`, which is what the compiled code does and what
is modelled here. -/
def cShr (x : Nat) (s : Int) : Nat := x >>> ((s % 64).toNat)

/-- Byte `k` (little-endian) of a 64-bit value: `tmp.b[k]` of the
`EndiannessUnion` on a little-endian host. -/
def byteOf (x k : Nat) : Nat := (x >>> (8 * k)) &&& 255

/-- Store byte `b` at little-endian byte index `k` of a 64-bit value:
`new_value.b[k] = b` of the `EndiannessUnion` on a little-endian host. -/
def setByte (x k b : Nat) : Nat :=
  (x &&& not64 (shl64 255 (8 * k))) ||| shl64 (b &&& 255) (8 * k)

/-- Union-array index used by the big-endian-guest branches of the read and
write callbacks: `tmp.b[8 - (i + offset)]` (line 225) and
`new_value.b[8 - (i + offset)]` (line 284). -/
def beGuestIndex (offset i : Nat) : Nat := 8 - (i + offset)

/-- Union-array index used by the little-endian-guest branches:
`tmp.b[i + offset]` / `new_value.b[i + offset]`. -/
def leGuestIndex (offset i : Nat) : Nat := i + offset

/-- The three kinds of compiled propagation rules
(`PERIPHERAL_REGISTER_AUTO_BITS_TYPE_*`). -/
inductive PeripheralRegisterAutoBitsType where
  | follows
  | clearedBy
  | setBy
deriving DecidableEq

/-- One compiled propagation rule (`PeripheralRegisterAutoBits`): a mask of
referenced bits, a signed shift (positive means shift left), and the rule
kind.  The C array's `mask == 0` terminator is an array artifact; here the
rule table is a list. -/
structure PeripheralRegisterAutoBits where
  mask : Nat
  shift : Int
  type : PeripheralRegisterAutoBitsType
deriving DecidableEq

/-- The fields of `RegisterBitfieldState` consumed by the register's own
validation and rule compilation.  `mask` and `shift` are populated by the
bitfield's own realize (register-bitfield.c, not part of this file's source):
per the data model, `mask` is the set of bits in `[first_bit, last_bit]` and
`shift` equals `first_bit`.  Concrete instances below supply those values
directly. -/
structure RegisterBitfieldState where
  name : String
  first_bit : Nat
  mask : Nat
  shift : Nat
  reset_value : Nat
  is_readable : Bool
  is_writable : Bool
  follows : Option String
  cleared_by : Option String
  set_by : Option String
deriving DecidableEq

/-- The fields of `PeripheralRegisterState` used by the modelled operations.
`auto_bits` is the compiled propagation rule table (empty list for the C
`NULL`). -/
structure PeripheralRegisterState where
  name : String
  value : Nat
  reset_value : Nat
  readable_bits : Nat
  writable_bits : Nat
  is_readable : Bool
  is_writable : Bool
  size_bits : Nat
  auto_bits : List PeripheralRegisterAutoBits
deriving DecidableEq

/-- `peripheral_register_get_value` (line 38): the externally observable
value, `value & readable_bits`. -/
def peripheral_register_get_value (s : PeripheralRegisterState) : Nat :=
  s.value &&& s.readable_bits

/-- The byte-copy loop of `peripheral_register_write_callback` for a
little-endian guest on a little-endian host (lines 270-277): for
`i = 0 .. size-1`, `new_value.b[i + offset] = in_value.b[i]`, starting from
the original register value. -/
def mergeBytesLE (oldValue inValue offset : Nat) : Nat → Nat
  | 0 => oldValue
  | i + 1 => setByte (mergeBytesLE oldValue inValue offset i)
      (leGuestIndex offset i) (byteOf inValue i)

/-- The byte-copy loop of `peripheral_register_write_callback` for a
big-endian guest on a little-endian host (lines 278-286): for
`i = 0 .. size-1`, `new_value.b[8 - (i + offset)] = in_value.b[i]`.
Note that for `offset = 0` the C index `8 - (i + offset)` is 8, one past the
end of the 8-byte union array (see the index-safety theorem below); this
model writes the mathematical byte 8 of the unbounded `Nat` instead. -/
def mergeBytesBE (oldValue inValue offset : Nat) : Nat → Nat
  | 0 => oldValue
  | i + 1 => setByte (mergeBytesBE oldValue inValue offset i)
      (beGuestIndex offset i) (byteOf inValue i)

/-- One iteration of the propagation loop of
`peripheral_register_write_callback` (lines 313-341), applied to the working
value `tmp`.  The `shift < 0` branches reproduce the source's
`mask >> shift` / `(tmp & mask) >> shift` with the negative count itself
(see `cShr`). -/
def applyOneAutoBits (tmp : Nat) (ab : PeripheralRegisterAutoBits) : Nat :=
  match ab.type with
  | .follows =>
    if ab.shift > 0 then
      let t := tmp &&& not64 (shl64 ab.mask ab.shift.toNat)
      t ||| shl64 (t &&& ab.mask) ab.shift.toNat
    else if ab.shift < 0 then
      let t := tmp &&& not64 (cShr ab.mask ab.shift)
      t ||| cShr (t &&& ab.mask) ab.shift
    else tmp
  | .clearedBy =>
    if ab.shift > 0 then
      tmp &&& not64 (shl64 (tmp &&& ab.mask) ab.shift.toNat)
    else if ab.shift < 0 then
      tmp &&& not64 (cShr (tmp &&& ab.mask) ab.shift)
    else tmp
  | .setBy =>
    if ab.shift > 0 then
      tmp ||| shl64 (tmp &&& ab.mask) ab.shift.toNat
    else if ab.shift < 0 then
      tmp ||| cShr (tmp &&& ab.mask) ab.shift
    else tmp

/-- The full propagation loop over the compiled rule table. -/
def applyAutoBits (tmp : Nat) (rules : List PeripheralRegisterAutoBits) : Nat :=
  rules.foldl applyOneAutoBits tmp

/-- `peripheral_register_write_callback` (lines 251-344): merge `size` bytes
of `value` at byte `offset` into a working copy of the stored value,
restrict the merge to `writable_bits`, run the propagation rules, and return
the committed value (the C code stores it into `state->value`). -/
def peripheral_register_write_callback (s : PeripheralRegisterState)
    (is_little_endian : Bool) (offset size value : Nat) : Nat :=
  let new_value :=
    if is_little_endian then mergeBytesLE s.value value offset size
    else mergeBytesBE s.value value offset size
  let tmp := (s.value &&& not64 s.writable_bits) ||| (new_value &&& s.writable_bits)
  applyAutoBits tmp s.auto_bits

/-- `peripheral_register_reset_callback` (lines 782-793): reinitialise the
live value from the realized reset value. -/
def peripheral_register_reset_callback (s : PeripheralRegisterState) :
    PeripheralRegisterState :=
  { s with value := s.reset_value }

/-- The accumulator of `peripheral_register_validate_bitfields`
(`PeripheralRegisterValidateTmp`, zero-initialised by `g_malloc0`). -/
structure PeripheralRegisterValidateTmp where
  mask : Nat
  readable_bits : Nat
  writable_bits : Nat
  reset_value : Nat
deriving DecidableEq

/-- Configuration errors raised during realize, mirroring the `error_setg`
messages of the source.  `missingTarget` records the relationship kind, the
referencing bitfield's name, the register's name, and the looked-up target
name (`none` models the C `NULL` pointer that the buggy SET_BY branch passes
to the lookup and to the `%s` format). -/
inductive ConfigError where
  | overlap (bitfieldName registerName : String)
  | missingTarget (kind : PeripheralRegisterAutoBitsType)
      (bitfieldName registerName : String) (target : Option String)
deriving DecidableEq

/-- The per-bitfield body of `peripheral_register_validate_bitfields`
(lines 404-437), folded over the register's children: fail on a mask overlap
with the accumulated mask, otherwise accumulate the union mask, the
readable/writable unions, and the composite reset value. -/
def peripheral_register_validate_go (regName : String)
    (acc : PeripheralRegisterValidateTmp) :
    List RegisterBitfieldState → Except ConfigError PeripheralRegisterValidateTmp
  | [] => .ok acc
  | b :: rest =>
    if b.mask &&& acc.mask ≠ 0 then
      .error (.overlap b.name regName)
    else
      peripheral_register_validate_go regName
        { mask := acc.mask ||| b.mask
          readable_bits :=
            if b.is_readable then acc.readable_bits ||| b.mask else acc.readable_bits
          writable_bits :=
            if b.is_writable then acc.writable_bits ||| b.mask else acc.writable_bits
          reset_value :=
            (acc.reset_value &&& not64 b.mask) |||
              (shl64 b.reset_value b.shift &&& b.mask) }
        rest

/-- `peripheral_register_validate_bitfields` run over all child bitfields,
starting from the zeroed accumulator. -/
def peripheral_register_validate_bitfields (regName : String)
    (bifis : List RegisterBitfieldState) :
    Except ConfigError PeripheralRegisterValidateTmp :=
  peripheral_register_validate_go regName ⟨0, 0, 0, 0⟩ bifis

/-- `peripheral_register_find_bifi` (lines 465-480): linear search of the
siblings for the bitfield with the looked-up name.  The C compares with
`strcmp(to_find_bifi, bifi->name)`; a `NULL` key (which the SET_BY branch
produces) is undefined behavior in C and is modelled as never matching. -/
def peripheral_register_find_bifi (toFind : Option String) :
    List RegisterBitfieldState → Option RegisterBitfieldState
  | [] => none
  | b :: rest =>
    if toFind = some b.name then some b
    else peripheral_register_find_bifi toFind rest

/-- The per-shift-distance mask accumulators of
`PeripheralRegisterAutoTmp` (lines 443-458), zero-initialised. -/
structure PeripheralRegisterAutoTmp where
  left_shift_follows_masks : Nat → Nat
  right_shift_follows_masks : Nat → Nat
  left_shift_cleared_by_masks : Nat → Nat
  right_shift_cleared_by_masks : Nat → Nat
  left_shift_set_by_masks : Nat → Nat
  right_shift_set_by_masks : Nat → Nat

/-- The zeroed `PeripheralRegisterAutoTmp` (`g_malloc0`). -/
def initialAutoTmp : PeripheralRegisterAutoTmp :=
  ⟨fun _ => 0, fun _ => 0, fun _ => 0, fun _ => 0, fun _ => 0, fun _ => 0⟩

/-- OR a mask into the accumulator array entry at index `i`
(`masks[i] |= mask`). -/
def bumpMask (f : Nat → Nat) (i m : Nat) : Nat → Nat :=
  fun j => if j = i then f j ||| m else f j

/-- The per-bitfield body of `peripheral_register_create_auto_array`
(lines 486-577).  The branch order is the source's `if follows / else if
cleared_by / else if set_by`.  In the SET_BY branch the source seeds the
sibling lookup from `bifi->cleared_by` rather than `bifi->set_by`
(line 549) - which is `NULL` there, since the branch is only reached with
`cleared_by` unset; this slip is reproduced faithfully. -/
def peripheral_register_auto_step (regName : String)
    (siblings : List RegisterBitfieldState) (t : PeripheralRegisterAutoTmp)
    (b : RegisterBitfieldState) : Except ConfigError PeripheralRegisterAutoTmp :=
  match b.follows with
  | some _ =>
    match peripheral_register_find_bifi b.follows siblings with
    | none => .error (.missingTarget .follows b.name regName b.follows)
    | some f =>
      let delta : Int := (b.first_bit : Int) - (f.first_bit : Int)
      if delta > 0 then
        .ok { t with left_shift_follows_masks :=
                bumpMask t.left_shift_follows_masks delta.toNat f.mask }
      else if delta < 0 then
        .ok { t with right_shift_follows_masks :=
                bumpMask t.right_shift_follows_masks (-delta).toNat f.mask }
      else .ok t
  | none =>
  match b.cleared_by with
  | some _ =>
    match peripheral_register_find_bifi b.cleared_by siblings with
    | none => .error (.missingTarget .clearedBy b.name regName b.cleared_by)
    | some f =>
      let delta : Int := (b.first_bit : Int) - (f.first_bit : Int)
      if delta > 0 then
        .ok { t with left_shift_cleared_by_masks :=
                bumpMask t.left_shift_cleared_by_masks delta.toNat f.mask }
      else if delta < 0 then
        .ok { t with right_shift_cleared_by_masks :=
                bumpMask t.right_shift_cleared_by_masks (-delta).toNat f.mask }
      else .ok t
  | none =>
  match b.set_by with
  | some _ =>
    match peripheral_register_find_bifi b.cleared_by siblings with
    | none => .error (.missingTarget .setBy b.name regName b.cleared_by)
    | some f =>
      let delta : Int := (b.first_bit : Int) - (f.first_bit : Int)
      if delta > 0 then
        .ok { t with left_shift_set_by_masks :=
                bumpMask t.left_shift_set_by_masks delta.toNat f.mask }
      else if delta < 0 then
        .ok { t with right_shift_set_by_masks :=
                bumpMask t.right_shift_set_by_masks (-delta).toNat f.mask }
      else .ok t
  | none => .ok t

/-- Fold of `peripheral_register_auto_step` over the children, with the
source's fail-fast on the first error. -/
def peripheral_register_create_auto_go (regName : String)
    (siblings : List RegisterBitfieldState) (t : PeripheralRegisterAutoTmp) :
    List RegisterBitfieldState → Except ConfigError PeripheralRegisterAutoTmp
  | [] => .ok t
  | b :: rest =>
    match peripheral_register_auto_step regName siblings t b with
    | .error e => .error e
    | .ok t2 => peripheral_register_create_auto_go regName siblings t2 rest

/-- The rule entries emitted for shift distance `i` by the packing loop of
`peripheral_register_realize_callback` (lines 723-760), in the source's
order: left FOLLOWS, right FOLLOWS, left CLEARED_BY, right CLEARED_BY,
left SET_BY, right SET_BY. -/
def packEntries (t : PeripheralRegisterAutoTmp) (i : Nat) :
    List PeripheralRegisterAutoBits :=
  (if t.left_shift_follows_masks i ≠ 0 then
    [⟨t.left_shift_follows_masks i, (i : Int), .follows⟩] else []) ++
  (if t.right_shift_follows_masks i ≠ 0 then
    [⟨t.right_shift_follows_masks i, -(i : Int), .follows⟩] else []) ++
  (if t.left_shift_cleared_by_masks i ≠ 0 then
    [⟨t.left_shift_cleared_by_masks i, (i : Int), .clearedBy⟩] else []) ++
  (if t.right_shift_cleared_by_masks i ≠ 0 then
    [⟨t.right_shift_cleared_by_masks i, -(i : Int), .clearedBy⟩] else []) ++
  (if t.left_shift_set_by_masks i ≠ 0 then
    [⟨t.left_shift_set_by_masks i, (i : Int), .setBy⟩] else []) ++
  (if t.right_shift_set_by_masks i ≠ 0 then
    [⟨t.right_shift_set_by_masks i, -(i : Int), .setBy⟩] else [])

/-- The full packing loop: shift distances ascending from 0 to 63. -/
def packAutoBits (t : PeripheralRegisterAutoTmp) :
    List PeripheralRegisterAutoBits :=
  (List.range 64).foldr (fun i acc => packEntries t i ++ acc) []

/-- `peripheral_register_create_auto_array` followed by the packing loop:
the compiled rule table (an empty list when no rule was accumulated,
matching the C `NULL` table). -/
def peripheral_register_create_auto_array (regName : String)
    (bifis : List RegisterBitfieldState) :
    Except ConfigError (List PeripheralRegisterAutoBits) :=
  match peripheral_register_create_auto_go regName bifis initialAutoTmp bifis with
  | .error e => .error e
  | .ok t => .ok (packAutoBits t)

/-- `PERIPHERAL_REGISTER_DEFAULT_SIZE_BYTES` from the (absent) header;
per the data model the default register width is 32 bits, i.e. 4 bytes.
The source assigns this byte count directly to `size_bits` (line 604). -/
def PERIPHERAL_REGISTER_DEFAULT_SIZE_BYTES : Nat := 4

/-- The two-line overlay of the composite bitfield reset value onto the
register's own reset value (lines 671-672):
`reset_value &= ~(bitfields_reset_value & bitfields_mask);`
`reset_value |= (bitfields_reset_value & bitfields_mask);`. -/
def peripheral_register_reset_overlay (own bfReset bfMask : Nat) : Nat :=
  (own &&& not64 (bfReset &&& bfMask)) ||| (bfReset &&& bfMask)

/-- The width-resolution step of `peripheral_register_realize_callback`
(lines 596-606): an unset `size_bits` is inherited from the owning device's
register width, or falls back to the default. -/
def peripheral_register_resolve_size (s : PeripheralRegisterState)
    (parent_register_size_bytes : Nat) : PeripheralRegisterState :=
  if s.size_bits = 0 then
    { s with size_bits :=
        if parent_register_size_bytes ≠ 0 then parent_register_size_bytes * 8
        else PERIPHERAL_REGISTER_DEFAULT_SIZE_BYTES }
  else s

/-- `peripheral_register_realize_callback` (lines 579-780): resolve the
register width, validate the bitfields, fold their readable/writable masks
in (or apply the all-bits defaults when there are none), force the masks to
zero for a wholly non-readable/non-writable register, overlay the composite
bitfield reset value, and compile the propagation rule table. -/
def peripheral_register_realize_callback (s : PeripheralRegisterState)
    (parent_register_size_bytes : Nat) (bifis : List RegisterBitfieldState) :
    Except ConfigError PeripheralRegisterState :=
  let s1 := peripheral_register_resolve_size s parent_register_size_bytes
  match peripheral_register_validate_bitfields s1.name bifis with
  | .error e => .error e
  | .ok acc =>
    let s2 :=
      if acc.mask ≠ 0 then
        { s1 with readable_bits := s1.readable_bits ||| acc.readable_bits,
                  writable_bits := s1.writable_bits ||| acc.writable_bits }
      else
        let rdef := if s1.readable_bits = 0 ∧ s1.is_readable then ones64 else s1.readable_bits
        let wdef := if s1.writable_bits = 0 ∧ s1.is_writable then ones64 else s1.writable_bits
        { s1 with readable_bits := rdef, writable_bits := wdef }
    let s3 := if s2.is_readable then s2 else { s2 with readable_bits := 0 }
    let s4 := if s3.is_writable then s3 else { s3 with writable_bits := 0 }
    let s5 := { s4 with reset_value :=
        peripheral_register_reset_overlay s4.reset_value acc.reset_value acc.mask }
    match peripheral_register_create_auto_array s1.name bifis with
    | .error e => .error e
    | .ok rules => .ok { s5 with auto_bits := rules }

/-! ## Concrete configurations used by the claim theorems -/

/-- Field A at bits [4,7] of an 8-bit register (FOLLOWS scenario). -/
def c1A : RegisterBitfieldState :=
  { name := "A", first_bit := 4, mask := 0xF0, shift := 4, reset_value := 0,
    is_readable := true, is_writable := true,
    follows := none, cleared_by := none, set_by := none }

/-- Field B at bits [0,3] declaring `follows = A`. -/
def c1B : RegisterBitfieldState :=
  { name := "B", first_bit := 0, mask := 0x0F, shift := 0, reset_value := 0,
    is_readable := true, is_writable := true,
    follows := some "A", cleared_by := none, set_by := none }

/-- The 8-bit host register of the FOLLOWS scenario, before realize. -/
def c1Reg : PeripheralRegisterState :=
  { name := "R", value := 0, reset_value := 0, readable_bits := 0,
    writable_bits := 0, is_readable := true, is_writable := true,
    size_bits := 8, auto_bits := [] }

/-- Field C at bits [0,3] declaring `clearedBy = D` (zero bit distance). -/
def c2C : RegisterBitfieldState :=
  { name := "C", first_bit := 0, mask := 0x0F, shift := 0, reset_value := 0,
    is_readable := true, is_writable := true,
    follows := none, cleared_by := some "D", set_by := none }

/-- Field D at the same bits [0,3] as C (zero bit distance). -/
def c2D : RegisterBitfieldState :=
  { name := "D", first_bit := 0, mask := 0x0F, shift := 0, reset_value := 0,
    is_readable := true, is_writable := true,
    follows := none, cleared_by := none, set_by := none }

/-- The register hosting C and D, before realize. -/
def c2Reg : PeripheralRegisterState :=
  { name := "R", value := 0, reset_value := 0, readable_bits := 0,
    writable_bits := 0, is_readable := true, is_writable := true,
    size_bits := 8, auto_bits := [] }

/-- A realized register state with all 8 low bits writable and an empty rule
table, as the zero-delta CLEARED_BY configuration compiles it. -/
def c2State : PeripheralRegisterState :=
  { name := "R", value := 0, reset_value := 0, readable_bits := 0xFF,
    writable_bits := 0xFF, is_readable := true, is_writable := true,
    size_bits := 8, auto_bits := [] }

/-- Sibling S at bits [0,3], the target named by the `setBy` of `c3X`. -/
def c3S : RegisterBitfieldState :=
  { name := "S", first_bit := 0, mask := 0x0F, shift := 0, reset_value := 0,
    is_readable := true, is_writable := true,
    follows := none, cleared_by := none, set_by := none }

/-- Field X at bits [4,7] declaring `setBy = S`, with S existing. -/
def c3X : RegisterBitfieldState :=
  { name := "X", first_bit := 4, mask := 0xF0, shift := 4, reset_value := 0,
    is_readable := true, is_writable := true,
    follows := none, cleared_by := none, set_by := some "S" }

/-- Field A at bits [0,3] (referenced by the FOLLOWS of `c4B`). -/
def c4A : RegisterBitfieldState :=
  { name := "A", first_bit := 0, mask := 0x0F, shift := 0, reset_value := 0,
    is_readable := true, is_writable := true,
    follows := none, cleared_by := none, set_by := none }

/-- Field B at bits [4,7] with reset value 0b1010, declaring `follows = A`. -/
def c4B : RegisterBitfieldState :=
  { name := "B", first_bit := 4, mask := 0xF0, shift := 4, reset_value := 0b1010,
    is_readable := true, is_writable := true,
    follows := some "A", cleared_by := none, set_by := none }

/-- A register marked non-writable (so realize forces `writable_bits = 0`)
hosting `c4A` and `c4B`. -/
def c4Reg : PeripheralRegisterState :=
  { name := "R", value := 0, reset_value := 0, readable_bits := 0,
    writable_bits := 0, is_readable := true, is_writable := false,
    size_bits := 8, auto_bits := [] }

/-- A realized register with `writable_bits = 0` and no rules, for the
amended frame-effect witness. -/
def c4wS : PeripheralRegisterState :=
  { name := "W", value := 5, reset_value := 5, readable_bits := 0xFF,
    writable_bits := 0, is_readable := true, is_writable := false,
    size_bits := 8, auto_bits := [] }

/-- Field E at bits [0,3] with declared (zero) reset value. -/
def c5E : RegisterBitfieldState :=
  { name := "E", first_bit := 0, mask := 0x0F, shift := 0, reset_value := 0,
    is_readable := true, is_writable := true,
    follows := none, cleared_by := none, set_by := none }

/-- A register whose own reset value 0x0F lies inside E's mask. -/
def c5Reg : PeripheralRegisterState :=
  { name := "R", value := 0, reset_value := 0x0F, readable_bits := 0,
    writable_bits := 0, is_readable := true, is_writable := true,
    size_bits := 8, auto_bits := [] }

/-- Bitfield with mask 0b0011, first element of the overlap witness. -/
def c6X1 : RegisterBitfieldState :=
  { name := "X1", first_bit := 0, mask := 0b0011, shift := 0, reset_value := 0,
    is_readable := true, is_writable := true,
    follows := none, cleared_by := none, set_by := none }

/-- Bitfield with mask 0b0110, overlapping `c6X1`. -/
def c6X2 : RegisterBitfieldState :=
  { name := "X2", first_bit := 1, mask := 0b0110, shift := 1, reset_value := 0,
    is_readable := true, is_writable := true,
    follows := none, cleared_by := none, set_by := none }

/-- Bitfield with mask 0b1000, disjoint from the others. -/
def c6X3 : RegisterBitfieldState :=
  { name := "X3", first_bit := 3, mask := 0b1000, shift := 3, reset_value := 0,
    is_readable := true, is_writable := true,
    follows := none, cleared_by := none, set_by := none }

/-- Bitfield declaring `follows = T` with no sibling named T. -/
def c7F : RegisterBitfieldState :=
  { name := "F", first_bit := 0, mask := 1, shift := 0, reset_value := 0,
    is_readable := true, is_writable := true,
    follows := some "T", cleared_by := none, set_by := none }

/-- Bitfield declaring `clearedBy = T2` with no sibling named T2. -/
def c7G : RegisterBitfieldState :=
  { name := "G", first_bit := 0, mask := 1, shift := 0, reset_value := 0,
    is_readable := true, is_writable := true,
    follows := none, cleared_by := some "T2", set_by := none }

/-- Bitfield declaring `setBy = S` with no sibling named S. -/
def c7H : RegisterBitfieldState :=
  { name := "H", first_bit := 0, mask := 1, shift := 0, reset_value := 0,
    is_readable := true, is_writable := true,
    follows := none, cleared_by := none, set_by := some "S" }

/-- A realized 32-bit register with every bit of the 64-bit storage writable
(the realize default for a writable register without bitfields) and no
propagation rules, holding `old`. -/
def c8State (old : Nat) : PeripheralRegisterState :=
  { name := "R", value := old, reset_value := 0, readable_bits := ones64,
    writable_bits := ones64, is_readable := true, is_writable := true,
    size_bits := 32, auto_bits := [] }

/-- A register state whose readable mask excludes bit 0 while the stored
value has bit 0 set. -/
def c9S : PeripheralRegisterState :=
  { name := "R", value := 0xFF, reset_value := 0, readable_bits := 0xFE,
    writable_bits := 0xFF, is_readable := true, is_writable := true,
    size_bits := 8, auto_bits := [] }

/-! ## Bit-level helper lemmas -/

/-- The 64-bit all-ones mask acts as truncation modulo 2^64 under AND. -/
theorem land_ones64_eq_mod (x : Nat) : x &&& ones64 = x % 2 ^ 64 :=
  Nat.and_pow_two_sub_one_eq_mod x 64

/-- Bits of the 64-bit all-ones mask. -/
theorem testBit_ones64 (i : Nat) : ones64.testBit i = decide (i < 64) :=
  Nat.testBit_two_pow_sub_one 64 i

/-- Bits of the 64-bit complement. -/
theorem testBit_not64 (x i : Nat) :
    (not64 x).testBit i = (decide (i < 64) && !x.testBit i) := by
  simp only [not64, Nat.testBit_xor, testBit_ones64, Nat.testBit_mod_two_pow]
  cases h : decide (i < 64) <;> cases hx : x.testBit i <;> simp

/-- Bits of a truncating left shift. -/
theorem testBit_shl64 (x s i : Nat) :
    (shl64 x s).testBit i =
      (decide (i < 64) && (decide (s ≤ i) && x.testBit (i - s))) := by
  simp only [shl64, Nat.testBit_mod_two_pow, Nat.testBit_shiftLeft, ge_iff_le]

/-- Bits of a byte extracted from a 64-bit value. -/
theorem testBit_byteOf (x k i : Nat) :
    (byteOf x k).testBit i = (decide (i < 8) && x.testBit (8 * k + i)) := by
  have h255 : (255 : Nat) = 2 ^ 8 - 1 := rfl
  simp only [byteOf, Nat.testBit_and, Nat.testBit_shiftRight, h255,
    Nat.testBit_two_pow_sub_one]
  exact Bool.and_comm _ _

/-- A value below 2^64 has no bits at positions 64 and above. -/
theorem testBit_eq_false_of_lt_64 {x : Nat} (hx : x < 2 ^ 64) {n : Nat}
    (hn : 64 ≤ n) : x.testBit n = false :=
  Nat.testBit_lt_two_pow
    (Nat.lt_of_lt_of_le hx (Nat.pow_le_pow_right (by norm_num) hn))

/-- An extracted byte is below 256. -/
theorem byteOf_lt (x k : Nat) : byteOf x k < 256 :=
  Nat.and_lt_two_pow _ (show (255 : Nat) < 2 ^ 8 by norm_num)

/-- Storing a byte keeps the value below 2^64. -/
theorem setByte_lt (x k b : Nat) : setByte x k b < 2 ^ 64 := by
  have h1 : not64 (shl64 255 (8 * k)) < 2 ^ 64 := by
    apply Nat.xor_lt_two_pow
    · simp [ones64]
    · exact Nat.mod_lt _ (by norm_num)
  exact Nat.or_lt_two_pow (Nat.and_lt_two_pow _ h1) (Nat.mod_lt _ (by norm_num))

/-- Bits of `setByte` for an in-range byte index. -/
theorem testBit_setByte (x k b i : Nat) (hk : k < 8) :
    (setByte x k b).testBit i =
      if 8 * k ≤ i ∧ i < 8 * k + 8 then b.testBit (i - 8 * k)
      else (decide (i < 64) && x.testBit i) := by
  have h255 : (255 : Nat) = 2 ^ 8 - 1 := rfl
  simp only [setByte, Nat.testBit_or, Nat.testBit_and, testBit_not64,
    testBit_shl64, h255, Nat.testBit_two_pow_sub_one]
  by_cases h : 8 * k ≤ i ∧ i < 8 * k + 8
  · have hlt : i < 64 := by omega
    have hle : 8 * k ≤ i := h.1
    have hsub : i - 8 * k < 8 := by omega
    simp [h, hlt, hle, hsub]
  · simp only [if_neg h]
    by_cases hlt : i < 64
    · by_cases hle : 8 * k ≤ i
      · have hsub : ¬ i - 8 * k < 8 := by omega
        simp [hlt, hle, hsub]
      · simp [hlt, hle]
    · simp [hlt]

/-- Extracting a byte after storing one: the stored byte at its own index,
the original value's byte elsewhere. -/
theorem byteOf_setByte (x k b i : Nat) (hx : x < 2 ^ 64) (hk : k < 8)
    (hb : b < 256) :
    byteOf (setByte x k b) i = if i = k then b else byteOf x i := by
  apply Nat.eq_of_testBit_eq
  intro m
  rw [testBit_byteOf, testBit_setByte _ _ _ _ hk]
  by_cases hik : i = k
  · subst hik
    by_cases hm : m < 8
    · have hin : 8 * i ≤ 8 * i + m ∧ 8 * i + m < 8 * i + 8 := by omega
      simp [hm, hin, if_pos rfl]
    · have hbm : b.testBit m = false := by
        apply Nat.testBit_lt_two_pow
        calc b < 2 ^ 8 := hb
          _ ≤ 2 ^ m := Nat.pow_le_pow_right (by norm_num) (by omega)
      simp [hm, if_pos rfl, hbm]
  · rw [if_neg hik, testBit_byteOf]
    by_cases hm : m < 8
    · have hout : ¬ (8 * k ≤ 8 * i + m ∧ 8 * i + m < 8 * k + 8) := by omega
      rw [if_neg hout]
      by_cases hlt : 8 * i + m < 64
      · simp [hm, hlt]
      · have : x.testBit (8 * i + m) = false :=
          testBit_eq_false_of_lt_64 hx (by omega)
        simp [hm, hlt, this]
    · simp [hm]

/-- An OR of naturals is zero exactly when both operands are zero. -/
theorem lor_eq_zero_iff (u v : Nat) : u ||| v = 0 ↔ u = 0 ∧ v = 0 := by
  constructor
  · intro h
    constructor <;>
      (apply Nat.eq_of_testBit_eq
       intro i
       have hh := congrArg (fun t => Nat.testBit t i) h
       simp only [Nat.testBit_or, Nat.zero_testBit, Bool.or_eq_false_iff] at hh
       simp [hh.1, hh.2])
  · rintro ⟨h1, h2⟩
    simp [h1, h2]

/-- Disjointness distributes over an OR on the right operand of AND. -/
theorem land_lor_eq_zero_iff (a x y : Nat) :
    a &&& (x ||| y) = 0 ↔ a &&& x = 0 ∧ a &&& y = 0 := by
  rw [Nat.and_or_distrib_left, lor_eq_zero_iff]

/-- The bitfield-validation fold succeeds exactly when the processed
bitfields are pairwise mask-disjoint and each is disjoint from the already
accumulated mask. -/
theorem validate_go_ok_iff (regName : String) (bs : List RegisterBitfieldState) :
    ∀ acc : PeripheralRegisterValidateTmp,
    (∃ r, peripheral_register_validate_go regName acc bs = .ok r) ↔
      (bs.Pairwise (fun a b => a.mask &&& b.mask = 0) ∧
        ∀ b ∈ bs, b.mask &&& acc.mask = 0) := by
  induction bs with
  | nil =>
    intro acc
    simp [peripheral_register_validate_go]
  | cons b rest ih =>
    intro acc
    rw [peripheral_register_validate_go]
    by_cases hb0 : b.mask &&& acc.mask = 0
    · rw [if_neg (by simp [hb0])]
      rw [ih]
      constructor
      · rintro ⟨hpr, hall⟩
        have hsplit : ∀ b' ∈ rest, b'.mask &&& acc.mask = 0 ∧ b'.mask &&& b.mask = 0 := by
          intro b' hb'
          have h := hall b' hb'
          rwa [land_lor_eq_zero_iff] at h
        refine ⟨List.pairwise_cons.mpr ⟨?_, hpr⟩, ?_⟩
        · intro b' hb'
          have h := (hsplit b' hb').2
          rwa [Nat.and_comm] at h
        · intro b' hb'
          rcases List.mem_cons.mp hb' with h | h
          · rw [h]; exact hb0
          · exact (hsplit b' h).1
      · rintro ⟨hp, hall⟩
        have hpc := List.pairwise_cons.mp hp
        refine ⟨hpc.2, ?_⟩
        intro b' hb'
        rw [land_lor_eq_zero_iff]
        refine ⟨hall b' (List.mem_cons.mpr (Or.inr hb')), ?_⟩
        have h := hpc.1 b' hb'
        rwa [Nat.and_comm] at h
    · rw [if_pos hb0]
      constructor
      · rintro ⟨r, hr⟩
        simp at hr
      · rintro ⟨-, hall⟩
        exact absurd (hall b (List.mem_cons_self b rest)) hb0

/-- Bitfield validation only ever fails with an overlap error naming one of
the processed bitfields and the register. -/
theorem validate_go_error_shape (regName : String) (bs : List RegisterBitfieldState) :
    ∀ (acc : PeripheralRegisterValidateTmp) (e : ConfigError),
    peripheral_register_validate_go regName acc bs = .error e →
    ∃ b ∈ bs, e = .overlap b.name regName := by
  induction bs with
  | nil =>
    intro acc e h
    simp [peripheral_register_validate_go] at h
  | cons b rest ih =>
    intro acc e h
    rw [peripheral_register_validate_go] at h
    by_cases hb0 : b.mask &&& acc.mask ≠ 0
    · rw [if_pos hb0] at h
      refine ⟨b, List.mem_cons_self b rest, ?_⟩
      cases h
      rfl
    · rw [if_neg hb0] at h
      obtain ⟨b', hmem, he⟩ := ih _ e h
      exact ⟨b', List.mem_cons.mpr (Or.inr hmem), he⟩

/-- Bitfield validation is fail-fast: an error on a prefix of the children
is the error of the whole list. -/
theorem validate_go_append_error (regName : String) (xs : List RegisterBitfieldState) :
    ∀ (ys : List RegisterBitfieldState) (acc : PeripheralRegisterValidateTmp)
      (e : ConfigError),
    peripheral_register_validate_go regName acc xs = .error e →
    peripheral_register_validate_go regName acc (xs ++ ys) = .error e := by
  induction xs with
  | nil =>
    intro ys acc e h
    simp [peripheral_register_validate_go] at h
  | cons b rest ih =>
    intro ys acc e h
    rw [peripheral_register_validate_go] at h
    rw [List.cons_append, peripheral_register_validate_go]
    by_cases hb0 : b.mask &&& acc.mask ≠ 0
    · rw [if_pos hb0] at h ⊢
      exact h
    · rw [if_neg hb0] at h ⊢
      exact ih ys _ e h

/-! ## Claim theorems -/

/-- Claim C9: for every register state, `getValue` returns exactly
`value AND readableBits`, and in particular never returns a set bit outside
`readableBits`. -/
theorem get_value_never_exposes_unreadable (s : PeripheralRegisterState) :
    peripheral_register_get_value s = s.value &&& s.readable_bits ∧
    ∀ i, s.readable_bits.testBit i = false →
      (peripheral_register_get_value s).testBit i = false := by
  refine ⟨rfl, fun i h => ?_⟩
  simp [peripheral_register_get_value, Nat.testBit_and, h]

/-- Witness for C9 at a concrete state whose readable mask excludes bit 0. -/
theorem get_value_never_exposes_unreadable_witness :
    (peripheral_register_get_value c9S).testBit 0 = false :=
  (get_value_never_exposes_unreadable c9S).2 0 (by decide)

/-- Claim C10 (failing input): for the allowed access size 1 at byte offset
0 (so offset + size is at most 8), the big-endian-guest union index
`8 - (i + offset)` at the first iteration `i = 0` is 8, which is outside the
bounds 0..7 of the 8-byte union arrays, while the little-endian-guest index
is in bounds; the claim that every index lies within 0..7 is therefore false
on the code. -/
theorem be_guest_index_out_of_bounds :
    1 ∈ ([1, 2, 4, 8] : List Nat) ∧ 0 + 1 ≤ 8 ∧
    beGuestIndex 0 0 = 8 ∧ ¬ beGuestIndex 0 0 ≤ 7 ∧ leGuestIndex 0 0 ≤ 7 := by
  decide

/-- Claim C1 (failing input): width-8 register, field A at bits [4,7],
field B at bits [0,3] with `follows = A`.  The compiled rule is
`mask = 0xF0`, `shift = -4`, FOLLOWS.  Writing raw value 0xA0 (A-bits
0b1010) commits 0xA0: the negative-shift FOLLOWS branch right-shifts by the
negative shift value itself (undefined in C; a shift by 60 as compiled), so
the rule is a no-op and B-bits stay 0b0000 instead of being forced to A's
0b1010. -/
theorem follows_negative_shift_failing_input :
    peripheral_register_create_auto_array "R" [c1A, c1B] =
      .ok [⟨0xF0, -4, .follows⟩] ∧
    ((peripheral_register_realize_callback c1Reg 1 [c1A, c1B]).map
      (fun s => peripheral_register_write_callback s true 0 1 0xA0)).toOption =
        some 0xA0 ∧
    (0xA0 : Nat) >>> 4 &&& 0x0F = 0b1010 ∧
    (0xA0 : Nat) &&& 0x0F ≠ 0b1010 :=
  ⟨rfl, rfl, by decide, by decide⟩

/-- Claim C3 (failing input): field X declares `setBy = S` and the sibling S
exists (the name lookup for "S" finds it), yet rule compilation fails with a
"set by missing" error whose looked-up target is the C `NULL` taken from
`cleared_by`, instead of compiling a SET_BY rule with S's mask and shift
`X.firstBit - S.firstBit`: the SET_BY branch seeds the sibling search from
the `cleared_by` field (source line 549). -/
theorem set_by_lookup_seeded_from_cleared_by :
    peripheral_register_create_auto_array "R" [c3S, c3X] =
      .error (.missingTarget .setBy "X" "R" none) ∧
    peripheral_register_find_bifi (some "S") [c3S, c3X] = some c3S ∧
    c3X.set_by = some "S" ∧ c3X.cleared_by = none :=
  ⟨rfl, rfl, rfl, rfl⟩

/-- Claim C7 (failing input): a dangling `follows` or `clearedBy` fails with
an error identifying the missing target name, but a dangling `setBy = S`
fails with an error whose reported target is the C `NULL` `cleared_by`
value (printed through `%s`), not the missing name "S" - so the error does
not identify the missing target for the SET_BY kind. -/
theorem dangling_relationship_errors :
    peripheral_register_create_auto_array "R" [c7F] =
      .error (.missingTarget .follows "F" "R" (some "T")) ∧
    peripheral_register_create_auto_array "R" [c7G] =
      .error (.missingTarget .clearedBy "G" "R" (some "T2")) ∧
    peripheral_register_create_auto_array "R" [c7H] =
      .error (.missingTarget .setBy "H" "R" none) ∧
    c7H.set_by = some "S" :=
  ⟨rfl, rfl, rfl, rfl⟩

/-- Claim C2 (counterexample): fields C and D width-aligned at zero bit
distance with `C clearedBy D` compile to an empty rule table (the zero-delta
rule is skipped), so a write whose raw value sets both C's and D's bits
commits C's bits unchanged (0x0F, not zero); moreover realize rejects this
configuration outright because the two width-aligned fields' masks overlap. -/
theorem cleared_by_zero_delta_counterexample :
    peripheral_register_create_auto_array "R" [c2C, c2D] = .ok [] ∧
    peripheral_register_realize_callback c2Reg 1 [c2C, c2D] =
      .error (.overlap "D" "R") ∧
    peripheral_register_write_callback c2State true 0 1 0xFF = 0xFF ∧
    (0xFF : Nat) &&& 0x0F ≠ 0 :=
  ⟨rfl, rfl, rfl, by decide⟩

/-- Claim C4 (counterexample): a realized register with
`writable_bits = 0` (whole register non-writable) hosting B[4,7] follows
A[0,3] with composite reset 0xA0; after reset the stored value is 0xA0, and
a write of 0 commits 0 - the FOLLOWS rule rewrites the working copy even
though no bit is writable, so the write does change the stored value. -/
theorem write_writable_zero_counterexample :
    (peripheral_register_realize_callback c4Reg 1 [c4A, c4B]).toOption.map
      (fun s =>
        let s2 := peripheral_register_reset_callback s
        (s2.writable_bits, s2.value,
          peripheral_register_write_callback s2 true 0 1 0)) =
      some (0, 0xA0, 0) ∧
    (0 : Nat) ≠ 0xA0 :=
  ⟨rfl, by decide⟩

/-- Claim C5 (counterexample): register own reset value 0x0F with bitfield E
at [0,3] declaring reset 0: the composite bitfield reset value is 0 on mask
0x0F, yet realize leaves the register reset value at 0x0F - bit 0 keeps the
register's declared 1 although the bitfield-declared reset bit there is 0,
so zero bitfield reset bits do not win inside the covered mask. -/
theorem reset_overlay_counterexample :
    peripheral_register_validate_bitfields "R" [c5E] =
      .ok ⟨0x0F, 0x0F, 0x0F, 0⟩ ∧
    (peripheral_register_realize_callback c5Reg 1 [c5E]).toOption.map
      (fun s => s.reset_value) = some 0x0F ∧
    (0x0F : Nat).testBit 0 = true ∧ (0 : Nat).testBit 0 = false ∧
    (0x0F : Nat).testBit 0 ≠ (0 : Nat).testBit 0 :=
  ⟨rfl, rfl, by decide, by decide, by decide⟩

/-- Claim C6: a register whose child bitfields contain an overlapping pair
fails validation with an error naming the register and an offending
bitfield; pairwise-disjoint bitfields pass; and validation stops at the
first overlap (an error on a prefix of the children is the error of the
whole list). -/
theorem overlapping_bitfields_rejected (regName : String)
    (bifis : List RegisterBitfieldState) :
    (¬ bifis.Pairwise (fun a b => a.mask &&& b.mask = 0) →
      ∃ b ∈ bifis, peripheral_register_validate_bitfields regName bifis =
        .error (.overlap b.name regName)) ∧
    (bifis.Pairwise (fun a b => a.mask &&& b.mask = 0) →
      ∃ acc, peripheral_register_validate_bitfields regName bifis = .ok acc) ∧
    (∀ xs ys e, peripheral_register_validate_bitfields regName xs = .error e →
      peripheral_register_validate_bitfields regName (xs ++ ys) = .error e) := by
  refine ⟨?_, ?_, ?_⟩
  · intro hnp
    cases hv : peripheral_register_validate_bitfields regName bifis with
    | ok r =>
      exfalso
      apply hnp
      have h := (validate_go_ok_iff regName bifis ⟨0, 0, 0, 0⟩).mp ⟨r, hv⟩
      exact h.1
    | error e =>
      obtain ⟨b, hmem, he⟩ := validate_go_error_shape regName bifis ⟨0, 0, 0, 0⟩ e hv
      exact ⟨b, hmem, by rw [he]⟩
  · intro hp
    apply (validate_go_ok_iff regName bifis ⟨0, 0, 0, 0⟩).mpr
    exact ⟨hp, fun b _ => Nat.and_zero b.mask⟩
  · intro xs ys e h
    exact validate_go_append_error regName xs ys ⟨0, 0, 0, 0⟩ e h

/-- Witness for C6: the overlap of X1 (mask 0b0011) and X2 (mask 0b0110) is
reported as soon as X2 is processed, and extending the child list does not
change the error. -/
theorem overlapping_bitfields_rejected_witness :
    peripheral_register_validate_bitfields "R" ([c6X1, c6X2] ++ [c6X3]) =
      .error (.overlap "X2" "R") :=
  (overlapping_bitfields_rejected "R" []).2.2 [c6X1, c6X2] [c6X3]
    (.overlap "X2" "R") rfl

/-- Claim C4 (amended): when `writable_bits = 0` the byte merge contributes
nothing - the committed value is exactly the propagation rules applied to
the prior stored value; in particular, with an empty rule table the stored
value is unchanged by any write. -/
theorem write_writable_zero_is_propagation_only (s : PeripheralRegisterState)
    (le : Bool) (offset size v : Nat) (h0 : s.writable_bits = 0)
    (hv : s.value < 2 ^ 64) :
    peripheral_register_write_callback s le offset size v =
      applyAutoBits s.value s.auto_bits ∧
    (s.auto_bits = [] →
      peripheral_register_write_callback s le offset size v = s.value) := by
  have key : peripheral_register_write_callback s le offset size v =
      applyAutoBits s.value s.auto_bits := by
    simp only [peripheral_register_write_callback, h0]
    have hn0 : not64 0 = ones64 := rfl
    rw [hn0, land_ones64_eq_mod, Nat.mod_eq_of_lt hv]
    simp
  refine ⟨key, fun he => ?_⟩
  rw [key, he]
  rfl

/-- Witness for the amended C4 at a concrete rule-free non-writable state. -/
theorem write_writable_zero_is_propagation_only_witness :
    peripheral_register_write_callback c4wS true 0 1 0xFF = c4wS.value :=
  (write_writable_zero_is_propagation_only c4wS true 0 1 0xFF rfl
    (by decide)).2 rfl

/-- Width resolution does not change the register's name. -/
theorem resolve_size_name (s : PeripheralRegisterState) (p : Nat) :
    (peripheral_register_resolve_size s p).name = s.name := by
  unfold peripheral_register_resolve_size
  split <;> rfl

/-- Width resolution does not change the register's declared reset value. -/
theorem resolve_size_reset (s : PeripheralRegisterState) (p : Nat) :
    (peripheral_register_resolve_size s p).reset_value = s.reset_value := by
  unfold peripheral_register_resolve_size
  split <;> rfl

/-- Claim C5 (amended): after a successful realize, the register's reset
value is its own declared reset value OR-ed with the composite bitfield
reset restricted to the union bitfield mask - set composite bits win, but
zero composite bits inside the mask do not clear the register's own declared
reset bits (the source clears exactly the bits it is about to set). -/
theorem realize_reset_value_or_overlay :
    (∀ (s : PeripheralRegisterState) (psz : Nat)
        (bifis : List RegisterBitfieldState)
        (acc : PeripheralRegisterValidateTmp) (s' : PeripheralRegisterState),
      peripheral_register_validate_bitfields s.name bifis = .ok acc →
      peripheral_register_realize_callback s psz bifis = .ok s' →
      s'.reset_value =
        peripheral_register_reset_overlay s.reset_value acc.reset_value acc.mask) ∧
    (∀ own bfReset bfMask : Nat, own < 2 ^ 64 → bfReset &&& bfMask < 2 ^ 64 →
      ∀ i, (peripheral_register_reset_overlay own bfReset bfMask).testBit i =
        (own.testBit i || (bfReset.testBit i && bfMask.testBit i))) := by
  constructor
  · intro s psz bifis acc s' hacc hs'
    simp only [peripheral_register_realize_callback, resolve_size_name] at hs'
    rw [hacc] at hs'
    cases hca : peripheral_register_create_auto_array s.name bifis with
    | error e =>
      rw [hca] at hs'
      simp at hs'
    | ok rules =>
      rw [hca] at hs'
      simp only [Except.ok.injEq] at hs'
      subst hs'
      simp only [apply_ite PeripheralRegisterState.reset_value, ite_self,
        resolve_size_reset]
  · intro own r m hown hrm i
    simp only [peripheral_register_reset_overlay, Nat.testBit_or,
      Nat.testBit_and, testBit_not64]
    by_cases hi : i < 64
    · cases hr : r.testBit i <;> cases hm : m.testBit i <;>
        cases ho : own.testBit i <;> simp [hi]
    · have h1 : own.testBit i = false := testBit_eq_false_of_lt_64 hown (by omega)
      have h2 : (r &&& m).testBit i = false := testBit_eq_false_of_lt_64 hrm (by omega)
      rw [Nat.testBit_and] at h2
      simp [hi, h1, h2]

/-- Witness for the amended C5 on the concrete register (own reset 0x0F,
bitfield E with zero reset on mask 0x0F): the realized reset value is the
OR overlay. -/
theorem realize_reset_value_or_overlay_witness :
    (PeripheralRegisterState.mk "R" 0 15 15 15 true true 8 []).reset_value =
      peripheral_register_reset_overlay c5Reg.reset_value
        (PeripheralRegisterValidateTmp.mk 15 15 15 0).reset_value
        (PeripheralRegisterValidateTmp.mk 15 15 15 0).mask :=
  realize_reset_value_or_overlay.1 c5Reg 1 [c5E]
    (PeripheralRegisterValidateTmp.mk 15 15 15 0)
    (PeripheralRegisterState.mk "R" 0 15 15 15 true true 8 []) rfl rfl

/-- Claim C2 (amended): a CLEARED_BY relationship between width-aligned
fields at zero bit distance compiles to no rule at all (the zero-delta case
falls through both shift branches), so the write's propagation pass is the
identity and C's merged bits are not cleared. -/
theorem cleared_by_zero_delta_skipped (regName : String)
    (c d : RegisterBitfieldState)
    (hf : c.follows = none) (hcb : c.cleared_by = some d.name)
    (hdf : d.follows = none) (hdc : d.cleared_by = none) (hds : d.set_by = none)
    (heq : c.first_bit = d.first_bit) :
    peripheral_register_create_auto_array regName [c, d] = .ok [] ∧
    ∀ x, applyAutoBits x [] = x := by
  refine ⟨?_, fun x => rfl⟩
  have hstep : peripheral_register_auto_step regName [c, d] initialAutoTmp c =
      .ok initialAutoTmp := by
    simp only [peripheral_register_auto_step, hf, hcb,
      peripheral_register_find_bifi]
    by_cases hnc : d.name = c.name
    · rw [if_pos (by rw [hnc])]
      simp
    · rw [if_neg (by simpa using hnc)]
      simp [heq]
  have hstepd : peripheral_register_auto_step regName [c, d] initialAutoTmp d =
      .ok initialAutoTmp := by
    simp only [peripheral_register_auto_step, hdf, hdc, hds]
  have hgo : peripheral_register_create_auto_go regName [c, d] initialAutoTmp
      [c, d] = .ok initialAutoTmp := by
    simp only [peripheral_register_create_auto_go, hstep, hstepd]
  simp only [peripheral_register_create_auto_array, hgo]
  rw [show packAutoBits initialAutoTmp = [] from by decide]

/-- Witness for the amended C2 on the concrete zero-distance pair C, D. -/
theorem cleared_by_zero_delta_skipped_witness :
    peripheral_register_create_auto_array "R" [c2C, c2D] = .ok [] :=
  (cleared_by_zero_delta_skipped "R" c2C c2D rfl rfl rfl rfl rfl rfl).1

/-- Claim C8: on a realized 32-bit register with guest and host little
endian, all bits writable and no propagation rules, writing 2 bytes at byte
offset 1 changes exactly bytes 1 and 2 of the stored value to the two
low-order bytes of the incoming value and leaves every other byte of the
64-bit storage unchanged. -/
theorem write_byte_locality (old v i : Nat) (hold : old < 2 ^ 64) :
    byteOf (peripheral_register_write_callback (c8State old) true 1 2 v) i =
      if i = 1 then byteOf v 0 else if i = 2 then byteOf v 1 else byteOf old i := by
  have hb0 : byteOf v 0 < 256 := byteOf_lt v 0
  have hb1 : byteOf v 1 < 256 := byteOf_lt v 1
  have h1lt : setByte old 1 (byteOf v 0) < 2 ^ 64 := setByte_lt _ _ _
  have h2lt : setByte (setByte old 1 (byteOf v 0)) 2 (byteOf v 1) < 2 ^ 64 :=
    setByte_lt _ _ _
  have hwrite : peripheral_register_write_callback (c8State old) true 1 2 v =
      setByte (setByte old 1 (byteOf v 0)) 2 (byteOf v 1) := by
    simp only [peripheral_register_write_callback, c8State, applyAutoBits,
      List.foldl_nil, if_true]
    have hmerge : mergeBytesLE old v 1 2 =
        setByte (setByte old 1 (byteOf v 0)) 2 (byteOf v 1) := rfl
    rw [hmerge]
    rw [show not64 ones64 = 0 from rfl]
    rw [Nat.and_zero, Nat.zero_or, land_ones64_eq_mod, Nat.mod_eq_of_lt h2lt]
  rw [hwrite]
  rw [byteOf_setByte _ _ _ _ h1lt (by norm_num) hb1]
  rw [byteOf_setByte _ _ _ _ hold (by norm_num) hb0]
  by_cases hi1 : i = 1
  · simp [hi1]
  · by_cases hi2 : i = 2
    · simp [hi1, hi2]
    · simp [hi1, hi2]

/-- Witness for C8: byte 1 of the committed value is the low byte of the
incoming value. -/
theorem write_byte_locality_witness :
    byteOf (peripheral_register_write_callback (c8State 0x1122334455667788)
      true 1 2 0xAABB) 1 = byteOf 0xAABB 0 := by
  have h := write_byte_locality 0x1122334455667788 0xAABB 1 (by decide)
  simpa using h
